import Mathlib

/-!
# Verification of the errcheck detection engine

A shallow embedding of `src/errcheck/errcheck.go` (package `errcheck`):
the detection visitor, the return-type classification, exclusion matching,
the generated-file filter, and the scan orchestration with its final
sort + adjacent-duplicate-removal step.

Modelling conventions:
* Frontend facts (`go/types`, `go/ast` resolution) are carried as fields of
  the embedded AST nodes: each call expression records the classification of
  its result type, whether its function operand resolves to the built-in
  `recover`, the resolved `*types.Func` of a selector, the package path of
  the used identifier, and the rendered first-argument type name.
* `token.Pos` values are carried already resolved through the `FileSet`
  (file name, offset, line, column), matching `token.Position`.
* The worker pool of `CheckPackages` merges per-package issue batches in a
  scheduling-dependent order; theorems about the finalization step quantify
  over permutations of the merged list to cover every schedule.
-/

namespace Errcheck

/-- `token.Position`: file name, byte offset, 1-based line and column. -/
structure Pos where
  filename : String
  offset : Nat
  line : Nat
  column : Nat
deriving DecidableEq, Repr

/-- `UncheckedError`: position, trimmed source line text, qualified function name. -/
structure UncheckedError where
  pos : Pos
  line : String
  funcName : String
deriving DecidableEq, Repr

/-- `byName.Less` from the source: lexicographic on file name, line, column,
line text.  The `Offset` and `FuncName` fields are not compared.  Go's `<`
on strings is lexicographic; it is computed here on the character lists
(equivalent to `String`'s order, see `byNameLess_iff_lt`). -/
def byNameLess (a b : UncheckedError) : Bool :=
  if a.pos.filename ≠ b.pos.filename then decide (a.pos.filename.data < b.pos.filename.data)
  else if a.pos.line ≠ b.pos.line then decide (a.pos.line < b.pos.line)
  else if a.pos.column ≠ b.pos.column then decide (a.pos.column < b.pos.column)
  else decide (a.line.data < b.line.data)

/-- The quadruple of fields that `byName.Less` actually inspects. -/
def issueKey (e : UncheckedError) : String × Nat × Nat × String :=
  (e.pos.filename, e.pos.line, e.pos.column, e.line)

/-- `sort.Sort` sorts so that no later element is `Less` than an earlier one;
this is the corresponding non-strict comparison. -/
def byNameLE (a b : UncheckedError) : Bool :=
  !byNameLess b a

/-- Classification of one slot of a `*types.Tuple` as far as the inner
switch of `errorsByArg` inspects it: `*types.Named` or `*types.Pointer`
(with the value of `types.Implements(t, errorType)`), or anything else
(the inner `default` branch). -/
inductive SlotType where
  | named (implementsError : Bool)
  | pointer (implementsError : Bool)
  | otherSlot
deriving DecidableEq, Repr

/-- Classification of a `types.Type` as far as `errorsByArg` inspects it.
For `*types.Named` and `*types.Pointer` the flag records the value of
`types.Implements(t, errorType)`; `errorsByArg` consults nothing else. -/
inductive GoType where
  | named (implementsError : Bool)
  | pointer (implementsError : Bool)
  | tuple (elems : List SlotType)
  | otherType
deriving DecidableEq, Repr

/-- The resolved `*types.Func` of a selector: `fn.FullName()` and `fn.Name()`. -/
structure FuncObj where
  fullName : String
  name : String
deriving DecidableEq, Repr

/-- The `Fun` operand of a call expression, together with the frontend facts
the visitor queries about it:
* `ident`: a plain identifier; `isBuiltinObj` records whether
  `TypesInfo.Uses[id]` is a `*types.Builtin`, and `pkgPath` the path of
  `Uses[id].Pkg()` (`none` when the object or its package is nil).
* `selector`: a member access `x.y.f`; `fn` is `ObjectOf(sel.Sel)` when it is
  a `*types.Func`, `pkgPath` as above for `sel.Sel`, and `ifaceChain` encodes
  the two-stage interface lookup: `none` when `TypesInfo.Selections` has no
  entry for the selector, `some none` when `walkThroughEmbeddedInterfaces`
  (defined outside this file's source) reports not-ok, and `some (some ts)`
  the rendered interface type names along the embedding chain.
* `otherFun`: any other expression (e.g. `*ast.SliceExpr`, `*ast.IndexExpr`). -/
inductive FunExpr where
  | ident (name : String) (isBuiltinObj : Bool) (pkgPath : Option String)
  | selector (selName : String) (fn : Option FuncObj) (pkgPath : Option String)
      (ifaceChain : Option (Option (List String)))
  | otherFun
deriving DecidableEq, Repr

/-- A call expression: its `Fun` operand, the rendered `argName` of each
argument (what `v.argName` returns; `""` for an unresolvable type), the
classification of `TypesInfo.Types[call].Type`, and the resolved position of
`call.Lparen`. -/
structure Call where
  callFun : FunExpr
  argNames : List String
  retType : GoType
  lparen : Pos
deriving DecidableEq, Repr

/-- A type-assertion expression `x.(T)`: `hasType` is false exactly when
`assert.Type == nil` (the type-switch form `x.(type)`); `pos` is the resolved
`assert.Pos()`. -/
structure Assert where
  hasType : Bool
  pos : Pos
deriving DecidableEq, Repr

/-- A right-hand-side expression as the visitor dispatches on it. -/
inductive Expr where
  | call (c : Call)
  | typeAssert (a : Assert)
  | otherExpr
deriving DecidableEq, Repr

/-- A left-hand-side target: an identifier with its `NamePos`, or any other
expression (index, selector, ...). -/
inductive LhsE where
  | ident (name : String) (npos : Pos)
  | otherLhs
deriving DecidableEq, Repr

/-- A statement as the visitor's type switch dispatches on it; every node
kind the `Visit` switch does not name falls under `otherStmt`. -/
inductive Stmt where
  | exprStmt (e : Expr)
  | goStmt (c : Call)
  | deferStmt (c : Call)
  | assign (lhs : List LhsE) (rhs : List Expr)
  | otherStmt
deriving DecidableEq, Repr

/-- The `visitor` struct (minus the per-file `lines` cache, which is a pure
memoization of `readfile`, and the `errors` accumulator, which our
`visitStmt` returns).  `ignore` holds the keys of the ignore map: in
`CheckPackages` every key is mapped to the match-all pattern `.*`, so the
map is faithfully represented by its key set.  `exclude` holds the keys of
`excludedSymbols` (every stored value is `true`).  `fs` is `readfile`: the
lines of each file, `[]` when unreadable. -/
structure Visitor where
  ignore : List String
  blank : Bool
  asserts : Bool
  exclude : List String
  go111module : Bool
  fs : String → List String

/-- `selectorAndFunc`: the `*types.Func` behind a selector call, when any. -/
def selectorAndFunc (c : Call) : Option FuncObj :=
  match c.callFun with
  | .selector _ fn _ _ => fn
  | _ => none

/-- `fullName`: package/receiver qualified name of a selector call's target,
`""` otherwise. -/
def fullName (c : Call) : String :=
  match selectorAndFunc c with
  | some fn => fn.fullName
  | none => ""

/-- `namesForExcludeCheck`: candidate names checked against the exclusion
set, enumerating embedded interfaces when the selection went through one. -/
def namesForExcludeCheck (c : Call) : List String :=
  match selectorAndFunc c with
  | none => []
  | some fn =>
    let name := fullName c
    if name = "" then []
    else
      match c.callFun with
      | .selector _ _ _ ifaceChain =>
        match ifaceChain with
        | none => [name]
        | some none => [name]
        | some (some ts) => ts.map fun t => "(" ++ t ++ ")." ++ fn.name
      | _ => [name]

/-- `excludeCall`: membership of any candidate name, bare or suffixed with
the rendered type of the first argument, in the exclusion set. -/
def excludeCall (v : Visitor) (c : Call) : Bool :=
  let arg0 := match c.argNames with
    | [] => ""
    | a0 :: _ => a0
  (namesForExcludeCheck c).any fun name =>
    v.exclude.contains name ||
      (arg0 ≠ "" && v.exclude.contains (name ++ "(" ++ arg0 ++ ")"))

/-- `nonVendoredPkgPath`: strip everything up to the last `/vendor/`
segment; the flag reports whether the path was vendored. -/
def nonVendoredPkgPath (pkgPath : String) : String × Bool :=
  let vendorSeg := "/vendor/".data
  let cs := pkgPath.data
  let lastVendorIndex :=
    (List.range (cs.length + 1)).foldl
      (fun acc i => if vendorSeg.isPrefixOf (cs.drop i) then some i else acc) none
  match lastVendorIndex with
  | none => (pkgPath, false)
  | some i => (⟨cs.drop (i + vendorSeg.length)⟩, true)

/-- `ignoreCall`: symbol exclusion, then identifier-pattern exclusion
against the literal package path and, in non-module mode, the de-vendored
path.  Every pattern stored in the ignore map is `.*`, so a present key
matches any identifier name. -/
def ignoreCall (v : Visitor) (c : Call) : Bool :=
  if excludeCall v c then true
  else
    let idInfo : Option (String × Option String) :=
      match c.callFun with
      | .ident name _ pkgPath => some (name, pkgPath)
      | .selector selName _ pkgPath _ => some (selName, pkgPath)
      | .otherFun => none
    match idInfo with
    | none => false
    | some (_, pkg?) =>
      if v.ignore.contains "" then true
      else
        match pkg? with
        | none => false
        | some pkgPath =>
          if v.ignore.contains pkgPath then true
          else if !v.go111module then
            match nonVendoredPkgPath pkgPath with
            | (np, true) => v.ignore.contains np
            | (_, false) => false
          else false

/-- `errorsByArg`: one flag per result slot; `true` iff that slot's type is
a named or pointer type implementing `error`.  Any other result shape is
`[false]`. -/
def errorsByArg (c : Call) : List Bool :=
  match c.retType with
  | .named e => [e]
  | .pointer e => [e]
  | .tuple elems =>
    elems.map fun et =>
      match et with
      | .named e => e
      | .pointer e => e
      | .otherSlot => false
  | .otherType => [false]

/-- `isRecover`: the function operand is the identifier `recover` bound to a
`*types.Builtin`. -/
def isRecover (c : Call) : Bool :=
  match c.callFun with
  | .ident name isBuiltinObj _ => isBuiltinObj && name = "recover"
  | _ => false

/-- `callReturnsError`: `recover` is always treated as error-valued,
otherwise some result slot must be an error type. -/
def callReturnsError (c : Call) : Bool :=
  if isRecover c then true
  else (errorsByArg c).any (· = true)

/-- `strings.TrimSpace` on the displayed line. -/
def trimSpace (s : String) : String := s.trim

/-- `addErrorAtPosition`: build one `UncheckedError` at a resolved position;
the display line degrades to `"??"` when the file has too few lines, and the
qualified name is empty when no call is supplied. -/
def addErrorAtPosition (v : Visitor) (pos : Pos) (call? : Option Call) : UncheckedError :=
  let lines := v.fs pos.filename
  let line :=
    if h : pos.line - 1 < lines.length then trimSpace (lines.get ⟨pos.line - 1, h⟩)
    else "??"
  let name := match call? with
    | some c => fullName c
    | none => ""
  { pos := pos, line := line, funcName := name }

/-- The `Visit` type switch: the issues recorded at one node.  `ast.Walk`
recurses into children unconditionally (the visitor always returns itself),
so a file's issues are the concatenation over its walked nodes.
In the single-right-hand-side call branch the source indexes `isError[i]`
for every left-hand target; type-checked Go guarantees the index is in
range, and the embedding uses `getD _ false` there.  In the
multi-right-hand-side branch the source assumes `len(Lhs) == len(Rhs)`
(stated in its comment), which `zip` realizes. -/
def visitStmt (v : Visitor) (s : Stmt) : List UncheckedError :=
  match s with
  | .exprStmt e =>
    match e with
    | .call c =>
      if !ignoreCall v c && callReturnsError c then [addErrorAtPosition v c.lparen (some c)]
      else []
    | _ => []
  | .goStmt c =>
    if !ignoreCall v c && callReturnsError c then [addErrorAtPosition v c.lparen (some c)]
    else []
  | .deferStmt c =>
    if !ignoreCall v c && callReturnsError c then [addErrorAtPosition v c.lparen (some c)]
    else []
  | .assign lhs rhs =>
    match rhs with
    | [.call c] =>
      if !v.blank then []
      else if ignoreCall v c then []
      else
        let isError := errorsByArg c
        lhs.enum.filterMap fun p =>
          match p.2 with
          | .ident name npos =>
            if name = "_" && (isRecover c || isError.getD p.1 false) then
              some (addErrorAtPosition v npos (some c))
            else none
          | .otherLhs => none
    | [.typeAssert a] =>
      if !v.asserts then []
      else if !a.hasType then []
      else if lhs.length < 2 then [addErrorAtPosition v a.pos none]
      else
        match lhs.get? 1 with
        | some (.ident name npos) =>
          if v.blank && name = "_" then [addErrorAtPosition v npos none] else []
        | _ => []
    | [_] => []
    | _ =>
      (lhs.zip rhs).filterMap fun p =>
        match p.1 with
        | .ident name npos =>
          match p.2 with
          | .call c =>
            if !v.blank then none
            else if ignoreCall v c then none
            else if name = "_" && callReturnsError c then
              some (addErrorAtPosition v npos (some c))
            else none
          | .typeAssert a =>
            if !v.asserts then none
            else if !a.hasType then none
            else some (addErrorAtPosition v npos none)
          | .otherExpr => none
        | .otherLhs => none
  | .otherStmt => []

/-- One parsed file of a package: the texts of all its comments and the
flattened list of walked statement nodes. -/
structure GoFile where
  comments : List String
  stmts : List Stmt
deriving DecidableEq

/-- One loaded `*packages.Package`: its ID, load diagnostics (`pkg.Errors`,
as messages), and syntax trees. -/
structure Package where
  id : String
  pkgErrors : List String
  files : List GoFile
deriving DecidableEq

/-- The `Exclusions` configuration struct. -/
structure Exclusions where
  packages : List String
  symbols : List String
  testFiles : Bool
  generatedFiles : Bool
  blankAssignments : Bool
  typeAssertions : Bool

/-- The `Checker` struct (`Verbose` only drives logging and is omitted). -/
structure Checker where
  exclusions : Exclusions
  tags : List String

/-- The regular expression `^// Code generated .* DO NOT EDIT\.$` applied by
`MatchString`: the whole comment text decomposes as the literal prefix, a
newline-free middle, and the literal suffix (both anchors bind to the text
boundaries since the pattern is compiled without multi-line mode, and `.`
does not match a newline). -/
def generatedCodeMatch (s : String) : Bool :=
  let pre := "// Code generated ".data
  let suf := " DO NOT EDIT.".data
  let cs := s.data
  pre.isPrefixOf cs && suf.isSuffixOf cs &&
    decide (pre.length + suf.length ≤ cs.length) &&
    !(((cs.drop pre.length).take (cs.length - pre.length - suf.length)).contains '\n')

/-- `shouldSkipFile`: with generated-file exclusion enabled, skip a file as
soon as any of its comments matches the generated-code marker. -/
def shouldSkipFile (c : Checker) (f : GoFile) : Bool :=
  if !c.exclusions.generatedFiles then false
  else f.comments.any generatedCodeMatch

/-- The walk of one file: `ast.Walk` applies the `Visit` switch to every
node and always recurses, so the file's issues are the concatenation of the
per-node findings. -/
def visitFile (v : Visitor) (f : GoFile) : List UncheckedError :=
  f.stmts.flatMap (visitStmt v)

/-- The per-file step of the worker loop: a skipped file contributes nothing,
any other file is fully walked. -/
def checkFile (c : Checker) (v : Visitor) (f : GoFile) : List UncheckedError :=
  if shouldSkipFile c f then [] else visitFile v f

/-- The per-package step of the worker loop. -/
def visitPackage (c : Checker) (v : Visitor) (p : Package) : List UncheckedError :=
  p.files.flatMap (checkFile c v)

/-- The ignore-map keys built by `CheckPackages` from the package exclusion
patterns: in module mode a vendored pattern is stored de-vendored.  Every
key is mapped to the match-all pattern `.*`. -/
def buildIgnore (c : Checker) (go111module : Bool) : List String :=
  c.exclusions.packages.map fun pkg =>
    match nonVendoredPkgPath pkg with
    | (nonVendoredPkg, true) => if go111module then nonVendoredPkg else pkg
    | (_, false) => pkg

/-- The visitor `CheckPackages` hands to each worker (identical for every
package up to the package-specific frontend data, which our AST embeds). -/
def mkVisitor (c : Checker) (go111module : Bool) (fs : String → List String) : Visitor :=
  { ignore := buildIgnore c go111module
    blank := !c.exclusions.blankAssignments
    asserts := !c.exclusions.typeAssertions
    exclude := c.exclusions.symbols
    go111module := go111module
    fs := fs }

/-- The in-place compaction of `CheckPackages` after the sort: keep the
first element and every element different from its predecessor in the
original list. -/
def dedupAdjRest (prev : UncheckedError) : List UncheckedError → List UncheckedError
  | [] => []
  | b :: rest => if b = prev then dedupAdjRest b rest else b :: dedupAdjRest b rest

/-- Adjacent-duplicate removal over the whole (sorted) list. -/
def dedupAdj : List UncheckedError → List UncheckedError
  | [] => []
  | a :: rest => a :: dedupAdjRest a rest

/-- `byNameLE` as a relation, for the comparison sort. -/
def issueLE (a b : UncheckedError) : Prop := byNameLE a b = true

instance : DecidableRel issueLE := fun a b =>
  inferInstanceAs (Decidable (byNameLE a b = true))

/-- `sort.Sort(byName{u})`: an (unspecified) comparison sort against
`byName.Less`, modelled by a concrete comparison sort; any list ordered by
`byNameLE` is a possible outcome, and which one is obtained depends on the
order the worker pool merged the batches in. -/
def sortIssues (l : List UncheckedError) : List UncheckedError :=
  List.insertionSort issueLE l

/-- The finalization step of `CheckPackages`: sort by
(file, line, column, line text), then drop adjacent exact duplicates. -/
def finalizeIssues (l : List UncheckedError) : List UncheckedError :=
  dedupAdj (sortIssues l)

/-- The outcomes of `CheckPackages`:
* `loadError`: `c.load` itself failed;
* `loadFailure`: some loaded package carried diagnostics
  (`"errors while loading package %s: %v"`, for the first such package);
* `noGoFiles`: the declared `ErrNoGoFiles` value;
* `issues`: the non-empty finalized `*UncheckedErrors` returned as an error;
* `clean`: the `nil` return. -/
inductive ScanResult where
  | loadError (msg : String)
  | loadFailure (pkgID : String)
  | noGoFiles
  | issues (errs : List UncheckedError)
  | clean
deriving DecidableEq

/-- Whether a result is the declared `ErrNoGoFiles` value. -/
def ScanResult.isNoGoFiles : ScanResult → Bool
  | .noGoFiles => true
  | _ => false

/-- `CheckPackages`: load, abort on the first package with load diagnostics
(before any worker starts), then visit every non-skipped file of every
package, and finalize the merged issues when there are any.  `go111module`
is the result of the external `go env GOMOD` probe, `fs` the file system
(for display lines), `loaded` the frontend's answer.  The merged list is
produced here in package order; scheduling-dependent merge orders are
covered by the theorems on `finalizeIssues` applied to permutations. -/
def checkPackages (c : Checker) (go111module : Bool) (fs : String → List String)
    (loaded : Except String (List Package)) : ScanResult :=
  match loaded with
  | .error e => .loadError e
  | .ok pkgs =>
    match pkgs.find? (fun p => !p.pkgErrors.isEmpty) with
    | some p => .loadFailure p.id
    | none =>
      let v := mkVisitor c go111module fs
      let u := pkgs.flatMap (visitPackage c v)
      if u.length > 0 then .issues (finalizeIssues u) else .clean

/-- Reduction of `checkPackages` on a successful load. -/
lemma checkPackages_ok (c : Checker) (g : Bool) (fs : String → List String)
    (pkgs : List Package) :
    checkPackages c g fs (.ok pkgs) =
      match pkgs.find? (fun p => !p.pkgErrors.isEmpty) with
      | some p => .loadFailure p.id
      | none =>
        let u := pkgs.flatMap (visitPackage c (mkVisitor c g fs))
        if u.length > 0 then .issues (finalizeIssues u) else .clean := rfl

/-! ## Order-theoretic facts about `byName.Less` -/

/-- The sort key, packaged as a lexicographically ordered tuple. -/
def toKeyLex (e : UncheckedError) : Lex (String × Lex (Nat × Lex (Nat × String))) :=
  toLex (e.pos.filename, toLex (e.pos.line, toLex (e.pos.column, e.line)))

lemma string_lt_iff_data_lt (s t : String) : s < t ↔ s.data < t.data := by
  rw [String.lt_iff_toList_lt]
  rfl

lemma byNameLess_iff_lt (a b : UncheckedError) :
    byNameLess a b = true ↔ toKeyLex a < toKeyLex b := by
  unfold byNameLess toKeyLex
  rcases eq_or_ne a.pos.filename b.pos.filename with h1 | h1
  · rcases eq_or_ne a.pos.line b.pos.line with h2 | h2
    · rcases eq_or_ne a.pos.column b.pos.column with h3 | h3
      · simp [h1, h2, h3, Prod.Lex.lt_iff, string_lt_iff_data_lt]
      · simp [h1, h2, h3, Prod.Lex.lt_iff]
    · simp [h1, h2, Prod.Lex.lt_iff]
  · simp [h1, Prod.Lex.lt_iff, string_lt_iff_data_lt]

lemma issueKey_eq_iff (a b : UncheckedError) :
    issueKey a = issueKey b ↔ toKeyLex a = toKeyLex b := by
  simp [issueKey, toKeyLex, Prod.mk.injEq]

lemma issueLE_iff (a b : UncheckedError) :
    issueLE a b ↔ toKeyLex a ≤ toKeyLex b := by
  unfold issueLE byNameLE
  rw [Bool.not_eq_true', ← not_lt, ← byNameLess_iff_lt b a]
  simp

instance : IsTotal UncheckedError issueLE :=
  ⟨fun a b => by
    rw [issueLE_iff, issueLE_iff]
    exact le_total (toKeyLex a) (toKeyLex b)⟩

instance : IsTrans UncheckedError issueLE :=
  ⟨fun a b c hab hbc => by
    rw [issueLE_iff] at *
    exact le_trans hab hbc⟩

lemma issueKey_eq_of_le_of_le {a b : UncheckedError}
    (h1 : issueLE a b) (h2 : issueLE b a) : issueKey a = issueKey b := by
  rw [issueLE_iff] at h1 h2
  exact (issueKey_eq_iff a b).mpr (le_antisymm h1 h2)

/-- Two lists that are permutations of each other and both sorted by
`byNameLE` are equal, provided the sort key determines the element among
the list's members. -/
lemma sorted_perm_eq_of_keyInj (l₁ : List UncheckedError) :
    ∀ l₂, l₁.Perm l₂ → l₁.Pairwise issueLE → l₂.Pairwise issueLE →
      (∀ a ∈ l₁, ∀ b ∈ l₁, issueKey a = issueKey b → a = b) → l₁ = l₂ := by
  induction l₁ with
  | nil =>
    intro l₂ hp _ _ _
    exact (hp.symm.eq_nil).symm
  | cons a t ih =>
    intro l₂ hp hs₁ hs₂ hinj
    cases l₂ with
    | nil => exact absurd hp.eq_nil (by simp)
    | cons b t₂ =>
      have hab : a = b := by
        by_cases hne : a = b
        · exact hne
        · have hbmem : b ∈ t := by
            have : b ∈ a :: t := hp.symm.subset (List.mem_cons_self b t₂)
            rcases List.mem_cons.mp this with h | h
            · exact absurd h.symm hne
            · exact h
          have hamem : a ∈ t₂ := by
            have : a ∈ b :: t₂ := hp.subset (List.mem_cons_self a t)
            rcases List.mem_cons.mp this with h | h
            · exact absurd h hne
            · exact h
          have h1 : issueLE a b := (List.pairwise_cons.mp hs₁).1 b hbmem
          have h2 : issueLE b a := (List.pairwise_cons.mp hs₂).1 a hamem
          exact hinj a (List.mem_cons_self a t) b (List.mem_cons_of_mem a hbmem)
            (issueKey_eq_of_le_of_le h1 h2)
      subst hab
      have hpt : t.Perm t₂ := hp.cons_inv
      have ht := ih t₂ hpt (List.pairwise_cons.mp hs₁).2 (List.pairwise_cons.mp hs₂).2
        (fun x hx y hy => hinj x (List.mem_cons_of_mem a hx) y (List.mem_cons_of_mem a hy))
      rw [ht]

lemma dedupAdjRest_nil (prev : UncheckedError) : dedupAdjRest prev [] = [] := rfl

lemma dedupAdjRest_cons (prev b : UncheckedError) (r : List UncheckedError) :
    dedupAdjRest prev (b :: r) =
      if b = prev then dedupAdjRest b r else b :: dedupAdjRest b r := rfl

lemma dedupAdjRest_subset :
    ∀ (r : List UncheckedError) (prev : UncheckedError), ∀ x ∈ dedupAdjRest prev r, x ∈ r := by
  intro r
  induction r with
  | nil => intro prev x hx; simp [dedupAdjRest_nil] at hx
  | cons b r' ih =>
    intro prev x hx
    by_cases hb : b = prev
    · rw [dedupAdjRest_cons, if_pos hb] at hx
      exact List.mem_cons_of_mem b (ih b x hx)
    · rw [dedupAdjRest_cons, if_neg hb] at hx
      rcases List.mem_cons.mp hx with h | h
      · exact h ▸ List.mem_cons_self b r'
      · exact List.mem_cons_of_mem b (ih b x h)

lemma dedupAdjRest_spec :
    ∀ (r : List UncheckedError) (prev : UncheckedError),
      (prev :: r).Pairwise issueLE →
      (∀ a ∈ prev :: r, ∀ b ∈ prev :: r, issueKey a = issueKey b → a = b) →
      (dedupAdjRest prev r).Pairwise (fun x y => issueKey x ≠ issueKey y) ∧
        (∀ b ∈ dedupAdjRest prev r, issueKey prev ≠ issueKey b) := by
  intro r
  induction r with
  | nil => intro prev _ _; simp [dedupAdjRest]
  | cons b r' ih =>
    intro prev hs hinj
    have hsTail : (b :: r').Pairwise issueLE := (List.pairwise_cons.mp hs).2
    have hinjTail : ∀ x ∈ b :: r', ∀ y ∈ b :: r', issueKey x = issueKey y → x = y :=
      fun x hx y hy => hinj x (List.mem_cons_of_mem prev hx) y (List.mem_cons_of_mem prev hy)
    obtain ⟨ihPW, ihNe⟩ := ih b hsTail hinjTail
    by_cases hb : b = prev
    · rw [dedupAdjRest_cons, if_pos hb]
      refine ⟨ihPW, ?_⟩
      intro c hc
      rw [← hb]
      exact ihNe c hc
    · have hkpb : issueKey prev ≠ issueKey b := by
        intro hk
        exact hb (hinj b (List.mem_cons_of_mem prev (List.mem_cons_self b r')) prev
          (List.mem_cons_self prev _) hk.symm)
      have hNewNe : ∀ c ∈ b :: dedupAdjRest b r', issueKey prev ≠ issueKey c := by
        intro c hc
        rcases List.mem_cons.mp hc with h | h
        · exact h ▸ hkpb
        · intro hk
          have hcr' : c ∈ r' := dedupAdjRest_subset r' b c h
          have hpc : prev = c := hinj prev (List.mem_cons_self prev _) c
            (List.mem_cons_of_mem prev (List.mem_cons_of_mem b hcr')) hk
          have hLEpb : issueLE prev b := (List.pairwise_cons.mp hs).1 b (List.mem_cons_self b r')
          have hLEbc : issueLE b c := (List.pairwise_cons.mp hsTail).1 c hcr'
          exact hkpb (issueKey_eq_of_le_of_le hLEpb (hpc ▸ hLEbc))
      rw [dedupAdjRest_cons, if_neg hb]
      exact ⟨List.pairwise_cons.mpr ⟨ihNe, ihPW⟩, hNewNe⟩

lemma dedupAdj_pairwise_keyNe (t : List UncheckedError)
    (hs : t.Pairwise issueLE)
    (hinj : ∀ a ∈ t, ∀ b ∈ t, issueKey a = issueKey b → a = b) :
    (dedupAdj t).Pairwise (fun x y => issueKey x ≠ issueKey y) := by
  cases t with
  | nil => simp [dedupAdj]
  | cons a r =>
    obtain ⟨hPW, hNe⟩ := dedupAdjRest_spec r a hs hinj
    exact List.pairwise_cons.mpr ⟨hNe, hPW⟩

/-! ## Helper lemmas for the visitor claims -/

lemma callReturnsError_eq_false {c : Call} (hrec : isRecover c = false)
    (herr : ∀ b ∈ errorsByArg c, b = false) : callReturnsError c = false := by
  unfold callReturnsError
  rw [hrec]
  simp only [Bool.false_eq_true, if_false, List.any_eq_false]
  intro b hb
  simp [herr b hb]

lemma getD_false_of_all_false {l : List Bool} (h : ∀ b ∈ l, b = false) (i : Nat) :
    l[i]?.getD false = false := by
  cases hx : l[i]? with
  | none => rfl
  | some b =>
    have : b ∈ l := List.getElem?_mem hx
    simp [h b this]

/-! ## Claims -/

/-- C1: for every call expression that is not the built-in `recover`
(which the engine always treats as error-valued) and whose full result-type
set contains no error-capable slot, the detection visitor produces no issue
for that call in any statement shape: expression statement, go statement,
defer statement, and assignments (single- or multi-right-hand-side, hence
any blank-assignment target). -/
theorem no_error_result_no_issue (v : Visitor) (c : Call)
    (hrec : isRecover c = false)
    (herr : ∀ b ∈ errorsByArg c, b = false) :
    visitStmt v (.exprStmt (.call c)) = [] ∧
    visitStmt v (.goStmt c) = [] ∧
    visitStmt v (.deferStmt c) = [] ∧
    ∀ lhs rhs, (∀ e ∈ rhs, e = Expr.call c) → visitStmt v (.assign lhs rhs) = [] := by
  have hcre : callReturnsError c = false := callReturnsError_eq_false hrec herr
  refine ⟨by simp [visitStmt, hcre], by simp [visitStmt, hcre], by simp [visitStmt, hcre], ?_⟩
  intro lhs rhs hall
  rcases rhs with _ | ⟨e, rest⟩
  · simp [visitStmt]
  · rcases rest with _ | ⟨e2, rest2⟩
    · have he : e = Expr.call c := hall e (List.mem_cons_self e [])
      subst he
      simp only [visitStmt]
      by_cases hbl : v.blank
      · by_cases hig : ignoreCall v c
        · simp [hbl, hig]
        · simp only [hbl, hig, Bool.not_true, Bool.not_false, if_true, if_false,
            Bool.false_eq_true]
          rw [List.filterMap_eq_nil_iff]
          intro p _
          cases hp : p.2 with
          | ident name npos => simp [hrec, getD_false_of_all_false herr]
          | otherLhs => rfl
      · simp [hbl]
    · have he : e = Expr.call c := hall e (List.mem_cons_self e _)
      have he2 : e2 = Expr.call c := hall e2 (List.mem_cons_of_mem e (List.mem_cons_self e2 _))
      subst he he2
      simp only [visitStmt]
      rw [List.filterMap_eq_nil_iff]
      intro p hp
      have hp2 : p.2 ∈ Expr.call c :: Expr.call c :: rest2 := (List.of_mem_zip hp).2
      have hpc : p.2 = Expr.call c := hall p.2 hp2
      rw [hpc]
      cases hp1 : p.1 with
      | ident name npos => simp [hcre]
      | otherLhs => rfl

/-- A visitor with empty exclusion data, blank and assertion checking on. -/
def sampleVisitor : Visitor := ⟨[], true, true, [], true, fun _ => []⟩

/-- Like `sampleVisitor` with blank-assignment checking disabled. -/
def sampleVisitorNoBlank : Visitor := ⟨[], false, true, [], true, fun _ => []⟩

/-- Like `sampleVisitor` with type-assertion checking disabled. -/
def sampleVisitorNoAsserts : Visitor := ⟨[], true, false, [], true, fun _ => []⟩

/-- A local call `f()` returning a plain non-error named type. -/
def plainCall : Call := ⟨.ident "f" false none, [], .named false, ⟨"a.go", 3, 1, 4⟩⟩

/-- A local call `f()` with result tuple `(T, error)`. -/
def tupleCall : Call :=
  ⟨.ident "f" false none, [], .tuple [.named false, .named true], ⟨"a.go", 10, 2, 8⟩⟩

/-- C1 witness: a concrete call returning a plain non-error named type
yields no issue in any statement shape. -/
theorem no_error_result_no_issue_witness :
    visitStmt sampleVisitor (.exprStmt (.call plainCall)) = [] ∧
    visitStmt sampleVisitor (.goStmt plainCall) = [] ∧
    visitStmt sampleVisitor (.deferStmt plainCall) = [] ∧
    visitStmt sampleVisitor
      (.assign [.ident "x" ⟨"a.go", 1, 1, 1⟩, .ident "_" ⟨"a.go", 4, 1, 4⟩]
        [.call plainCall, .call plainCall]) = [] := by
  obtain ⟨h1, h2, h3, h4⟩ :=
    no_error_result_no_issue sampleVisitor plainCall (by decide) (by decide)
  exact ⟨h1, h2, h3, h4 _ _ (by decide)⟩

/-- C4: for a single-right-hand-side assignment `v, _ := f()` whose
right-hand side is a non-excluded call with result tuple `(T, error)`:
with blank-assignment checking enabled exactly one issue is produced, at
the blank discard target's position; with it disabled, none. -/
theorem blank_assign_error_tuple (v : Visitor) (c : Call) (t : SlotType)
    (vName : String) (vPos usPos : Pos)
    (hret : c.retType = GoType.tuple [t, SlotType.named true])
    (hig : ignoreCall v c = false)
    (hv : vName ≠ "_") :
    (v.blank = true →
      visitStmt v (.assign [.ident vName vPos, .ident "_" usPos] [.call c]) =
        [addErrorAtPosition v usPos (some c)]) ∧
    (v.blank = false →
      visitStmt v (.assign [.ident vName vPos, .ident "_" usPos] [.call c]) = []) := by
  constructor
  · intro hbl
    simp only [visitStmt, hbl, hig, Bool.not_true, Bool.false_eq_true, if_false]
    simp [List.enum, List.filterMap, errorsByArg, hret, hv]
  · intro hbl
    simp [visitStmt, hbl]

/-- C4 witness: the blank-discarded error tuple, with checking enabled and
disabled. -/
theorem blank_assign_error_tuple_witness :
    visitStmt sampleVisitor
      (.assign [.ident "x" ⟨"a.go", 20, 2, 1⟩, .ident "_" ⟨"a.go", 23, 2, 4⟩]
        [.call tupleCall]) =
      [addErrorAtPosition sampleVisitor ⟨"a.go", 23, 2, 4⟩ (some tupleCall)] ∧
    visitStmt sampleVisitorNoBlank
      (.assign [.ident "x" ⟨"a.go", 20, 2, 1⟩, .ident "_" ⟨"a.go", 23, 2, 4⟩]
        [.call tupleCall]) = [] :=
  ⟨(blank_assign_error_tuple sampleVisitor tupleCall (.named false) "x"
      ⟨"a.go", 20, 2, 1⟩ ⟨"a.go", 23, 2, 4⟩ rfl (by decide) (by decide)).1 rfl,
   (blank_assign_error_tuple sampleVisitorNoBlank tupleCall (.named false) "x"
      ⟨"a.go", 20, 2, 1⟩ ⟨"a.go", 23, 2, 4⟩ rfl (by decide) (by decide)).2 rfl⟩

/-- C5: for a single-right-hand-side assignment from a type assertion (not
a type switch): with type-assertion checking enabled, the single-target form
`v := x.(T)` produces exactly one issue at the assertion's position with an
empty function name; the form `v, ok := x.(T)` with a non-blank success
target produces no issue whatever the type-assertion toggle. -/
theorem type_assert_single_vs_captured (a : Assert)
    (vName okName : String) (vPos okPos : Pos)
    (hT : a.hasType = true)
    (hok : okName ≠ "_") :
    (∀ v : Visitor, v.asserts = true →
      visitStmt v (.assign [.ident vName vPos] [.typeAssert a]) =
        [addErrorAtPosition v a.pos none] ∧
      (addErrorAtPosition v a.pos none).funcName = "") ∧
    (∀ v : Visitor,
      visitStmt v (.assign [.ident vName vPos, .ident okName okPos] [.typeAssert a]) = []) := by
  constructor
  · intro v hA
    constructor
    · simp [visitStmt, hA, hT]
    · rfl
  · intro v
    by_cases hA : v.asserts
    · simp [visitStmt, hA, hT, List.get?, hok]
    · simp [visitStmt, hA]

/-- A concrete type assertion (not a type switch). -/
def sampleAssert : Assert := ⟨true, ⟨"b.go", 40, 3, 6⟩⟩

/-- C5 witness: concrete assertion, single-target form with assertion
checking on, and captured form under both toggle values. -/
theorem type_assert_single_vs_captured_witness :
    (visitStmt sampleVisitor (.assign [.ident "x" ⟨"b.go", 30, 3, 1⟩]
        [.typeAssert sampleAssert]) =
      [addErrorAtPosition sampleVisitor sampleAssert.pos none] ∧
      (addErrorAtPosition sampleVisitor sampleAssert.pos none).funcName = "") ∧
    visitStmt sampleVisitor
      (.assign [.ident "x" ⟨"b.go", 30, 3, 1⟩, .ident "ok" ⟨"b.go", 33, 3, 4⟩]
        [.typeAssert sampleAssert]) = [] ∧
    visitStmt sampleVisitorNoAsserts
      (.assign [.ident "x" ⟨"b.go", 30, 3, 1⟩, .ident "ok" ⟨"b.go", 33, 3, 4⟩]
        [.typeAssert sampleAssert]) = [] :=
  ⟨(type_assert_single_vs_captured sampleAssert "x" "ok" ⟨"b.go", 30, 3, 1⟩
      ⟨"b.go", 33, 3, 4⟩ (by decide) (by decide)).1 sampleVisitor rfl,
   (type_assert_single_vs_captured sampleAssert "x" "ok" ⟨"b.go", 30, 3, 1⟩
      ⟨"b.go", 33, 3, 4⟩ (by decide) (by decide)).2 sampleVisitor,
   (type_assert_single_vs_captured sampleAssert "x" "ok" ⟨"b.go", 30, 3, 1⟩
      ⟨"b.go", 33, 3, 4⟩ (by decide) (by decide)).2 sampleVisitorNoAsserts⟩

/-- A second concrete type assertion at a different position. -/
def sampleAssert2 : Assert := ⟨true, ⟨"b.go", 50, 4, 9⟩⟩

/-- C6 counterexample: with type-assertion checking disabled, a
multi-right-hand-side assignment binding type assertions to identifier
targets records no issue — the branch checks the toggle (`if !v.asserts`),
contradicting the claimed toggle-independence. -/
theorem multi_assign_assert_toggle_cex :
    visitStmt sampleVisitorNoAsserts
      (.assign [.ident "a" ⟨"b.go", 60, 5, 1⟩, .ident "b" ⟨"b.go", 63, 5, 4⟩]
        [.typeAssert sampleAssert, .typeAssert sampleAssert2]) = [] := by
  decide

/-- C6 amended: in a multi-right-hand-side assignment, a type-assertion
right-hand term bound to an identifier target records an issue exactly when
type-assertion checking is enabled — the branch respects the toggle, the
same as the single-right-hand-side branch. -/
theorem multi_assign_assert_respects_toggle (v : Visitor)
    (n1 n2 : String) (p1 p2 : Pos) (a1 a2 : Assert)
    (h1 : a1.hasType = true) (h2 : a2.hasType = true) :
    visitStmt v (.assign [.ident n1 p1, .ident n2 p2] [.typeAssert a1, .typeAssert a2]) =
      if v.asserts then [addErrorAtPosition v p1 none, addErrorAtPosition v p2 none]
      else [] := by
  by_cases hA : v.asserts <;>
    simp [visitStmt, hA, h1, h2, List.zip_cons_cons, List.filterMap_cons]

/-- C6 amended witness: both toggle values at a concrete assignment. -/
theorem multi_assign_assert_respects_toggle_witness :
    visitStmt sampleVisitor
      (.assign [.ident "a" ⟨"b.go", 60, 5, 1⟩, .ident "b" ⟨"b.go", 63, 5, 4⟩]
        [.typeAssert sampleAssert, .typeAssert sampleAssert2]) =
      [addErrorAtPosition sampleVisitor ⟨"b.go", 60, 5, 1⟩ none,
        addErrorAtPosition sampleVisitor ⟨"b.go", 63, 5, 4⟩ none] ∧
    visitStmt sampleVisitorNoAsserts
      (.assign [.ident "c" ⟨"b.go", 70, 6, 1⟩, .ident "d" ⟨"b.go", 73, 6, 4⟩]
        [.typeAssert sampleAssert, .typeAssert sampleAssert2]) = [] := by
  constructor
  · have h := multi_assign_assert_respects_toggle sampleVisitor "a" "b"
      ⟨"b.go", 60, 5, 1⟩ ⟨"b.go", 63, 5, 4⟩ sampleAssert sampleAssert2 (by decide) (by decide)
    simpa using h
  · have h := multi_assign_assert_respects_toggle sampleVisitorNoAsserts "c" "d"
      ⟨"b.go", 70, 6, 1⟩ ⟨"b.go", 73, 6, 4⟩ sampleAssert sampleAssert2 (by decide) (by decide)
    simpa using h

/-- C10: in a multi-right-hand-side assignment with type-assertion checking
enabled, a type-assertion term bound to a named, non-blank identifier target
still records an issue at that identifier's position, although the
assertion's result is captured. -/
theorem multi_assign_assert_captured_reports (v : Visitor)
    (n1 n2 : String) (p1 p2 : Pos) (a1 a2 : Assert)
    (hA : v.asserts = true)
    (h1 : a1.hasType = true) (h2 : a2.hasType = true)
    (_hn1 : n1 ≠ "_") (_hn2 : n2 ≠ "_") :
    visitStmt v (.assign [.ident n1 p1, .ident n2 p2] [.typeAssert a1, .typeAssert a2]) =
      [addErrorAtPosition v p1 none, addErrorAtPosition v p2 none] := by
  simp [visitStmt, hA, h1, h2, List.zip_cons_cons, List.filterMap_cons]

/-- C10 witness: `a, b := x.(T), y.(U)` with checking enabled yields one
issue at each of `a` and `b`. -/
theorem multi_assign_assert_captured_reports_witness :
    visitStmt sampleVisitor
      (.assign [.ident "a" ⟨"b.go", 60, 5, 1⟩, .ident "b" ⟨"b.go", 63, 5, 4⟩]
        [.typeAssert sampleAssert, .typeAssert sampleAssert2]) =
      [addErrorAtPosition sampleVisitor ⟨"b.go", 60, 5, 1⟩ none,
        addErrorAtPosition sampleVisitor ⟨"b.go", 63, 5, 4⟩ none] :=
  multi_assign_assert_captured_reports sampleVisitor "a" "b"
    ⟨"b.go", 60, 5, 1⟩ ⟨"b.go", 63, 5, 4⟩ sampleAssert sampleAssert2
    rfl (by decide) (by decide) (by decide) (by decide)

/-- The full recognized generated-code marker comment. -/
def genComment : String := "// Code generated by X. DO NOT EDIT."

/-- A near-miss marker comment missing the final clause. -/
def partialComment : String := "// Code generated by X."

/-- A local call `g()` returning an error-capable named type. -/
def errorCall : Call := ⟨.ident "g" false none, [], .named true, ⟨"c.go", 15, 2, 6⟩⟩

/-- An expression statement discarding `errorCall`'s error. -/
def offendingStmt : Stmt := .exprStmt (.call errorCall)

/-- A file carrying only the incomplete marker plus one offending call. -/
def partialMarkedFile : GoFile := ⟨[partialComment], [offendingStmt]⟩

/-- A file carrying the full marker plus one offending call. -/
def genMarkedFile : GoFile := ⟨[genComment], [offendingStmt]⟩

/-- A checker with generated-file exclusion enabled and nothing else. -/
def genChecker : Checker := ⟨⟨[], [], false, true, false, false⟩, []⟩

/-- A checker with every exclusion disabled. -/
def emptyChecker : Checker := ⟨⟨[], [], false, false, false, false⟩, []⟩

/-- C7: with generated-file exclusion enabled, any file containing a comment
matching the recognized marker produces zero issues; the exact comment
`// Code generated by X. DO NOT EDIT.` matches the marker, while
`// Code generated by X.` does not, and a file whose only candidate comment
is the latter is fully scanned and can produce issues (concretely, one). -/
theorem generated_file_exclusion (c : Checker) (v : Visitor) (f : GoFile)
    (hg : c.exclusions.generatedFiles = true)
    (hm : ∃ cm ∈ f.comments, generatedCodeMatch cm = true) :
    checkFile c v f = [] ∧
    generatedCodeMatch genComment = true ∧
    generatedCodeMatch partialComment = false ∧
    checkFile genChecker sampleVisitor partialMarkedFile =
      [addErrorAtPosition sampleVisitor ⟨"c.go", 15, 2, 6⟩ (some errorCall)] := by
  refine ⟨?_, by decide, by decide, by decide⟩
  have hskip : shouldSkipFile c f = true := by
    unfold shouldSkipFile
    rw [hg]
    simp only [Bool.not_true, Bool.false_eq_true, if_false, List.any_eq_true]
    obtain ⟨cm, hcm, hmatch⟩ := hm
    exact ⟨cm, hcm, hmatch⟩
  unfold checkFile
  rw [hskip]
  rfl

/-- C7 witness: a concrete file with the full marker is skipped entirely. -/
theorem generated_file_exclusion_witness :
    checkFile genChecker sampleVisitor genMarkedFile = [] ∧
    generatedCodeMatch genComment = true ∧
    generatedCodeMatch partialComment = false ∧
    checkFile genChecker sampleVisitor partialMarkedFile =
      [addErrorAtPosition sampleVisitor ⟨"c.go", 15, 2, 6⟩ (some errorCall)] :=
  generated_file_exclusion genChecker sampleVisitor genMarkedFile (by decide) (by decide)

/-- C8: if any loaded package carries a load diagnostic, `CheckPackages`
returns the load-failure result for a package: no package is visited, no
issues are produced and no partial result is returned. -/
theorem load_failure_aborts_scan (c : Checker) (g : Bool) (fs : String → List String)
    (pkgs : List Package)
    (h : ∃ p ∈ pkgs, p.pkgErrors ≠ []) :
    ∃ pkgID, checkPackages c g fs (.ok pkgs) = .loadFailure pkgID := by
  obtain ⟨p, hp, hne⟩ := h
  have hsome : (pkgs.find? (fun p => !p.pkgErrors.isEmpty)).isSome := by
    rw [List.find?_isSome]
    exact ⟨p, hp, by simp [hne]⟩
  obtain ⟨q, hq⟩ := Option.isSome_iff_exists.mp hsome
  refine ⟨q.id, ?_⟩
  rw [checkPackages_ok, hq]

/-- A package whose load produced a diagnostic. -/
def failedPkg : Package := ⟨"badpkg", ["parse error"], []⟩

/-- C8 witness: one failing package aborts the concrete scan. -/
theorem load_failure_aborts_scan_witness :
    ∃ pkgID,
      checkPackages emptyChecker true (fun _ => []) (.ok [failedPkg]) =
        .loadFailure pkgID :=
  load_failure_aborts_scan emptyChecker true (fun _ => []) [failedPkg]
    ⟨failedPkg, List.mem_cons_self failedPkg [], by decide⟩

lemma isNoGoFiles_ite (P : Prop) [Decidable P] (l : List UncheckedError) :
    (if P then ScanResult.issues l else ScanResult.clean).isNoGoFiles = false := by
  by_cases h : P <;> simp [h, ScanResult.isNoGoFiles]

/-- C9: a load yielding zero packages (a path with no source files, when the
frontend reports no diagnostic for it) produces the empty success `nil`, and
no execution of `CheckPackages` ever returns the declared `ErrNoGoFiles`
value — the dedicated no-go-files failure is dead code. -/
theorem no_go_files_never_returned (c : Checker) (g : Bool) (fs : String → List String) :
    checkPackages c g fs (.ok []) = .clean ∧
    ∀ loaded, (checkPackages c g fs loaded).isNoGoFiles = false := by
  constructor
  · rfl
  · intro loaded
    match loaded with
    | .error e => rfl
    | .ok pkgs =>
      rw [checkPackages_ok]
      cases hf : pkgs.find? (fun p => !p.pkgErrors.isEmpty) with
      | some p => rfl
      | none =>
        exact isNoGoFiles_ite ((pkgs.flatMap (visitPackage c (mkVisitor c g fs))).length > 0)
          (finalizeIssues (pkgs.flatMap (visitPackage c (mkVisitor c g fs))))

/-- The visitor `CheckPackages` builds for `emptyChecker` over an empty
file system. -/
def scanVisitor : Visitor := mkVisitor emptyChecker true (fun _ => [])

/-- A selector call `p.F()` returning `error`, positioned in `s.go`. -/
def collideF : Call :=
  ⟨.selector "F" (some ⟨"p.F", "F"⟩) (some "p") none, [], .named true, ⟨"s.go", 30, 3, 5⟩⟩

/-- A selector call `q.G()` returning `error`, recorded at the same
position of the same file name as `collideF`. -/
def collideG : Call :=
  ⟨.selector "G" (some ⟨"q.G", "G"⟩) (some "q") none, [], .named true, ⟨"s.go", 30, 3, 5⟩⟩

/-- A package whose single file discards `collideF`'s error. -/
def pkgP : Package := ⟨"p", [], [⟨[], [.exprStmt (.call collideF)]⟩]⟩

/-- A package whose single file discards `collideG`'s error. -/
def pkgQ : Package := ⟨"q", [], [⟨[], [.exprStmt (.call collideG)]⟩]⟩

/-- Two issues at distinct positions. -/
def issueA : UncheckedError := ⟨⟨"a.go", 5, 1, 3⟩, "x()", "p.F"⟩

/-- A second issue, with a key different from `issueA`'s. -/
def issueB : UncheckedError := ⟨⟨"b.go", 9, 2, 1⟩, "y()", "q.G"⟩

/-- C2 counterexample: two scans of the same module set `{pkgP, pkgQ}` whose
workers merge the per-package batches in opposite orders produce different
finalized lists: the two issues agree on (file, line, column, line text) —
all that `byName.Less` compares — but differ in qualified name, which the
adjacent-duplicate removal does compare, so neither ordering of the tie is
collapsed and the tie order follows the merge order. -/
theorem finalize_schedule_dependent_cex :
    (visitPackage emptyChecker scanVisitor pkgP ++
        visitPackage emptyChecker scanVisitor pkgQ).Perm
      (visitPackage emptyChecker scanVisitor pkgQ ++
        visitPackage emptyChecker scanVisitor pkgP) ∧
    finalizeIssues (visitPackage emptyChecker scanVisitor pkgP ++
        visitPackage emptyChecker scanVisitor pkgQ) ≠
      finalizeIssues (visitPackage emptyChecker scanVisitor pkgQ ++
        visitPackage emptyChecker scanVisitor pkgP) := by
  decide

/-- C2 amended: two merge orders of the same collected issues finalize to
identical lists, provided any two collected issues that agree on
(file, line, column, line text) are equal outright — i.e. the sort key
determines the record.  Under that side condition the sort outcome is
unique and the adjacent-duplicate removal sees the same list. -/
theorem finalize_deterministic_of_keyInj (l₁ l₂ : List UncheckedError)
    (hperm : l₁.Perm l₂)
    (hinj : ∀ a ∈ l₁, ∀ b ∈ l₁, issueKey a = issueKey b → a = b) :
    finalizeIssues l₁ = finalizeIssues l₂ := by
  have hs₁ : (sortIssues l₁).Pairwise issueLE := List.sorted_insertionSort issueLE l₁
  have hs₂ : (sortIssues l₂).Pairwise issueLE := List.sorted_insertionSort issueLE l₂
  have hp : (sortIssues l₁).Perm (sortIssues l₂) :=
    (List.perm_insertionSort issueLE l₁).trans
      (hperm.trans (List.perm_insertionSort issueLE l₂).symm)
  have hinj' : ∀ a ∈ sortIssues l₁, ∀ b ∈ sortIssues l₁, issueKey a = issueKey b → a = b :=
    fun a ha b hb => hinj a ((List.perm_insertionSort issueLE l₁).subset ha)
      b ((List.perm_insertionSort issueLE l₁).subset hb)
  unfold finalizeIssues
  rw [sorted_perm_eq_of_keyInj (sortIssues l₁) (sortIssues l₂) hp hs₁ hs₂ hinj']

/-- C2 amended witness: two key-distinct issues in either merge order. -/
theorem finalize_deterministic_of_keyInj_witness :
    finalizeIssues [issueA, issueB] = finalizeIssues [issueB, issueA] :=
  finalize_deterministic_of_keyInj [issueA, issueB] [issueB, issueA]
    (by decide) (by decide)

/-- C3 counterexample: after finalization of a merged scan of
`{pkgP, pkgQ}`, two entries equal in (file, line, column, line text) remain:
they differ in qualified name, which the sort ignores but the duplicate
removal compares. -/
theorem finalize_key_duplicates_cex :
    ¬ (finalizeIssues (visitPackage emptyChecker scanVisitor pkgP ++
          visitPackage emptyChecker scanVisitor pkgQ)).Pairwise
        (fun a b => issueKey a ≠ issueKey b) := by
  decide

/-- C3 amended: provided any two collected issues agreeing on
(file, line, column, line text) are equal outright, the finalized list has
pairwise distinct keys; and two loaded module variants producing the same
batch for one shared physical file yield that batch exactly once after
deduplication, not twice. -/
theorem finalize_no_key_duplicates (l : List UncheckedError)
    (hinj : ∀ a ∈ l, ∀ b ∈ l, issueKey a = issueKey b → a = b) :
    (finalizeIssues l).Pairwise (fun a b => issueKey a ≠ issueKey b) ∧
    finalizeIssues (visitPackage emptyChecker scanVisitor pkgP ++
        visitPackage emptyChecker scanVisitor pkgP) =
      visitPackage emptyChecker scanVisitor pkgP := by
  constructor
  · have hs : (sortIssues l).Pairwise issueLE := List.sorted_insertionSort issueLE l
    have hinj' : ∀ a ∈ sortIssues l, ∀ b ∈ sortIssues l, issueKey a = issueKey b → a = b :=
      fun a ha b hb => hinj a ((List.perm_insertionSort issueLE l).subset ha)
        b ((List.perm_insertionSort issueLE l).subset hb)
    exact dedupAdj_pairwise_keyNe (sortIssues l) hs hinj'
  · decide

/-- C3 amended witness: two key-distinct issues stay key-distinct after
finalization, and the duplicated shared-file batch collapses to one. -/
theorem finalize_no_key_duplicates_witness :
    (finalizeIssues [issueA, issueB]).Pairwise (fun a b => issueKey a ≠ issueKey b) ∧
    finalizeIssues (visitPackage emptyChecker scanVisitor pkgP ++
        visitPackage emptyChecker scanVisitor pkgP) =
      visitPackage emptyChecker scanVisitor pkgP :=
  finalize_no_key_duplicates [issueA, issueB] (by decide)

end Errcheck
